import Mathlib

/-!
# Verification of `import_tulip_table` (Import_Tulip_Table repository)

A shallow embedding of `src/import_tulip.py` and proofs about it.

The Python function `import_tulip_table` validates its table reference
arguments, encodes the bearer token, queries a table-listing endpoint,
resolves the requested table, fetches that table's records through a
paginated loop, builds a pandas DataFrame and post-processes it
(empty-case column synthesis, timestamp timezone normalization, column
renaming, column-name case normalization).

Modelling conventions:
* HTTP is modelled by a `TulipWorld` value holding the listing endpoint's
  response and a function from (limit, offset) to the records endpoint's
  response.  Request issuance is tracked in the output (`listingRequests`,
  `pageLog`).
* pandas DataFrames are modelled by `Frame`: a row count plus an ordered
  list of named columns (pandas keeps a row index even for frames without
  columns, hence the explicit `nRows`).
* Cell values are modelled by `CellVal`; datetime-parseable payloads are
  the `dtNaive`/`dtAware` constructors (an aware value stores its UTC
  instant plus a zone name; `pd.to_datetime` cannot parse a `scalar`).
  Timezone conversion (`tz_convert`) is instant-preserving; localizing a
  naive value to UTC keeps the instant unchanged because UTC wall time
  equals the instant.  Wall-clock rendering in a zone is delegated to the
  timezone database, an external collaborator of the source.
* Python string functions (`str.title`, `str.upper`, the space
  replacement) are modelled character-wise over ASCII; Python's Unicode
  case handling beyond ASCII is outside the model.
* The float division `max_limit / 1000` is modelled by the exact rational
  `Rat.divInt max_limit 1000`; for the integer-versus-`max_limit/1000`
  comparisons the loop performs, the IEEE double value and the exact
  rational lie strictly on the same side of every integer, so the
  embedding agrees with the float semantics.
* The `while True` loop is embedded with explicit fuel; the fuel
  `100000000 + max_limit.toNat` strictly exceeds the number of passes any
  run can perform (each successful pass increments `iteration`, and the
  loop stops once `iteration ≥ max_iterations`, where `max_iterations` is
  `99999999` or `max_limit / 1000`), so the fuel-exhaustion branch is
  never taken.
-/

namespace TulipImport

/-! ## Python character-level string operations (ASCII fragment) -/

/-- Is `c` an ASCII letter?  Models Python's notion of a cased/letter
character restricted to ASCII (`str.title` treats maximal runs of letters
as words). -/
def pyIsAlpha (c : Char) : Bool :=
  decide ((65 ≤ c.toNat ∧ c.toNat ≤ 90) ∨ (97 ≤ c.toNat ∧ c.toNat ≤ 122))

/-- ASCII lower-casing of one character, as in Python `str.lower`. -/
def pyToLower (c : Char) : Char :=
  if 65 ≤ c.toNat ∧ c.toNat ≤ 90 then Char.ofNat (c.toNat + 32) else c

/-- ASCII upper-casing of one character, as in Python `str.upper`. -/
def pyToUpper (c : Char) : Char :=
  if 97 ≤ c.toNat ∧ c.toNat ≤ 122 then Char.ofNat (c.toNat - 32) else c

/-- One character of Python `str.title`: a letter is upper-cased when the
preceding character is not a letter and lower-cased otherwise; non-letters
pass through. -/
def pyTitleMap (prevAlpha : Bool) (c : Char) : Char :=
  if pyIsAlpha c then (if prevAlpha then pyToLower c else pyToUpper c) else c

/-- Python `str.title` on a character list; `prevAlpha` records whether
the previous character was a letter. -/
def pyTitleAux (prevAlpha : Bool) : List Char → List Char
  | [] => []
  | c :: cs => pyTitleMap prevAlpha c :: pyTitleAux (pyIsAlpha c) cs

/-- Python `str.title`. -/
def pyTitle (s : String) : String := ⟨pyTitleAux false s.data⟩

/-- Python `str.upper` (ASCII). -/
def pyUpper (s : String) : String := ⟨s.data.map pyToUpper⟩

/-- One character of the replacement `.str.replace(" ", "_")`. -/
def pySpaceToUnderscore (c : Char) : Char := if c = ' ' then '_' else c

/-- The replacement `.str.replace(" ", "_")` on a whole string. -/
def replaceSpaces (s : String) : String := ⟨s.data.map pySpaceToUnderscore⟩

/-- Line 139 of the source, for a single column name:
`col.upper() if col == "ID" else col.title()`. -/
def capitalizeName (col : String) : String :=
  if col = "ID" then pyUpper col else pyTitle col

/-- Lines 139–140 of the source: title-case every column name except a
literal `"ID"` (upper-cased), then replace every space with an
underscore. -/
def normalizeColumns (names : List String) : List String :=
  (names.map capitalizeName).map replaceSpaces

/-! ## Query-string parsing (lines 77–78 of the source)

`urllib.parse.urlparse(url).query` keeps the part of the URL after the
first `?` (and before any `#` fragment); `urllib.parse.parse_qs` splits
the query on `&`, splits each field at its first `=`, and drops fields
without an `=` or with an empty value.  Percent/plus decoding is not
modelled (the claims only involve undecoded numeric values). -/

/-- Split a character list at every occurrence of `sep`
(Python `str.split` with a one-character separator). -/
def splitOnChar (sep : Char) : List Char → List (List Char)
  | [] => [[]]
  | c :: cs =>
    match splitOnChar sep cs with
    | [] => [[]]
    | f :: rest => if c = sep then [] :: f :: rest else (c :: f) :: rest

/-- Split a character list at the first occurrence of `sep`; the second
component is `none` when `sep` does not occur. -/
def splitFirst (sep : Char) : List Char → List Char × Option (List Char)
  | [] => ([], none)
  | c :: cs =>
    if c = sep then ([], some cs)
    else
      let r := splitFirst sep cs
      (c :: r.1, r.2)

/-- The result of `urllib.parse.urlparse(url).query`, as a character list. -/
def urlQueryChars (url : List Char) : List Char :=
  match (splitFirst '?' (splitFirst '#' url).1).2 with
  | none => []
  | some q => q

/-- The list of values `urllib.parse.parse_qs` associates with `key`, in
field order. -/
def qsValues (q : List Char) (key : List Char) : List (List Char) :=
  (splitOnChar '&' q).filterMap fun field =>
    match splitFirst '=' field with
    | (_, none) => none
    | (k, some v) => if k = key ∧ v ≠ [] then some v else none

/-- The numeric value of an ASCII digit. -/
def digitVal? (c : Char) : Option Nat :=
  if 48 ≤ c.toNat ∧ c.toNat ≤ 57 then some (c.toNat - 48) else none

/-- Parse a non-empty all-digit character list. -/
def digitsToNat? (l : List Char) : Option Nat :=
  if l = [] then none
  else
    l.foldl
      (fun acc c =>
        match acc, digitVal? c with
        | some n, some d => some (n * 10 + d)
        | _, _ => none)
      (some 0)

/-- Python `int()` on a string (sign plus digits; `none` models the
`ValueError` raised on anything else). -/
def pyIntOfChars? (l : List Char) : Option Int :=
  match l with
  | '-' :: rest => (digitsToNat? rest).map fun n => -(n : Int)
  | '+' :: rest => (digitsToNat? rest).map fun n => (n : Int)
  | _ => (digitsToNat? l).map fun n => (n : Int)

/-- Lines 77–78:
`max_limit = int(parse_qs(urlparse(url).query).get("limit", [0])[0])`.
`some 0` when no `limit` field is present; `none` models the uncaught
`ValueError` from `int()` on a malformed value. -/
def parseLimit (url : String) : Option Int :=
  match qsValues (urlQueryChars url.data) "limit".data with
  | [] => some 0
  | v :: _ => pyIntOfChars? v

/-- Line 74: the records URL, the raw query string appended verbatim. -/
def recordsUrl (inst idStr query : String) : String :=
  "https://" ++ inst ++ "/api/v3/w/1/tables/" ++ idStr ++ "/records" ++ query

/-! ## Data model -/

/-- A cell payload.  `dtNaive t` is a datetime-parseable value without
timezone information whose wall-clock reading is `t`; `dtAware t z` is a
timezone-aware datetime with UTC instant `t` and zone name `z`;
`scalar s` is a payload `pd.to_datetime` cannot parse. -/
inductive CellVal where
  | dtNaive (t : Int)
  | dtAware (t : Int) (zone : String)
  | scalar (s : String)
  deriving DecidableEq

/-- One record returned by the records endpoint: a field-name/value
mapping. -/
abbrev Rec := List (String × CellVal)

/-- One entry of a table's `columns` metadata: internal `name` and
display `label`. -/
structure ColumnSpec where
  name : String
  label : String
  deriving DecidableEq

/-- One entry of the table-listing response.  `id?` and `label?` are
optional because the source reads them with `dict.get`. -/
structure TableInfo where
  id? : Option String
  label? : Option String
  columns : List ColumnSpec
  deriving DecidableEq

/-- The remote API: the listing endpoint's HTTP status and parsed body,
and the records endpoint as a function from (limit, offset) to HTTP
status and parsed body. -/
structure TulipWorld where
  listingStatus : Nat
  listing : List TableInfo
  records : Nat → Nat → Nat × List Rec

/-- Line 62: `next((r for r in tables_data if r.get(field) == match), None)`
where `field` is `"id"` when a table id was supplied and `"label"`
otherwise. -/
def findTable (tables : List TableInfo) (useId : Bool) (m : String) :
    Option TableInfo :=
  tables.find? fun r => (if useId then r.id? else r.label?) = some m

/-! ## DataFrame model -/

/-- A pandas DataFrame: a row count and ordered, named columns.  A cell
is `Option CellVal`: `none` is a missing value (`NaN`/`NaT`). -/
structure Frame where
  nRows : Nat
  cols : List (String × List (Option CellVal))
  deriving DecidableEq

/-- The column names of a frame, in order. -/
def Frame.colNames (F : Frame) : List String := F.cols.map (·.1)

/-- Pandas `df.empty`: true when either axis is empty. -/
def Frame.isEmpty (F : Frame) : Bool := F.nRows = 0 || F.cols.isEmpty

/-- The values of column `c`, when present. -/
def Frame.getCol? (F : Frame) (c : String) : Option (List (Option CellVal)) :=
  (F.cols.find? fun p => p.1 = c).map (·.2)

/-- Pandas `df[c] = vals`: overwrite every column named `c`, or append a new
column when `c` is absent. -/
def Frame.setCol (F : Frame) (c : String) (vals : List (Option CellVal)) :
    Frame :=
  if F.cols.any fun p => p.1 = c then
    ⟨F.nRows, F.cols.map fun p => if p.1 = c then (c, vals) else p⟩
  else ⟨F.nRows, F.cols ++ [(c, vals)]⟩

/-- Pandas `df[c] = None`: a full column of missing values. -/
def Frame.setColNone (F : Frame) (c : String) : Frame :=
  F.setCol c (List.replicate F.nRows none)

/-- Python `dict.get` on a record (first binding of the key). -/
def recLookup (r : Rec) (k : String) : Option CellVal :=
  (r.find? fun p => p.1 = k).map (·.2)

/-- The keys appearing in a record list, in first-appearance order:
the column order `pd.DataFrame(list_of_dicts)` uses. -/
def recordKeys (rs : List Rec) : List String :=
  rs.foldl
    (fun acc r =>
      r.foldl (fun acc2 p => if p.1 ∈ acc2 then acc2 else acc2 ++ [p.1]) acc)
    []

/-- Line 111: `pd.DataFrame(all_records)`. -/
def frameOfRecords (rs : List Rec) : Frame :=
  ⟨rs.length, (recordKeys rs).map fun k => (k, rs.map fun r => recLookup r k)⟩

/-- Lines 115–119: the empty-case fallback frame: the metadata's internal
column names, then `_createdAt`, `_updatedAt`, `_Sequencenumber`, all
value-less. -/
def emptyFallback (tableColumns : List ColumnSpec) : Frame :=
  let F : Frame := ⟨0, tableColumns.map fun c => (c.name, [])⟩
  ((F.setColNone "_createdAt").setColNone "_updatedAt").setColNone
    "_Sequencenumber"

/-- Lines 111–119: build the frame from the accumulated records, falling
back to the synthesized empty frame when `df.empty`. -/
def constructFrame (rs : List Rec) (tableColumns : List ColumnSpec) : Frame :=
  let df := frameOfRecords rs
  if df.isEmpty then emptyFallback tableColumns else df

/-! ## Timestamp normalization (lines 122–130) -/

/-- Does every present cell parse as a timezone-naive datetime? -/
def colNaive (vals : List (Option CellVal)) : Bool :=
  vals.all fun v =>
    match v with
    | none => true
    | some (.dtNaive _) => true
    | _ => false

/-- Does every present cell parse as a timezone-aware datetime? -/
def colAware (vals : List (Option CellVal)) : Bool :=
  vals.all fun v =>
    match v with
    | none => true
    | some (.dtAware _ _) => true
    | _ => false

/-- The zone names carried by the aware cells of a column. -/
def colZones (vals : List (Option CellVal)) : List String :=
  vals.filterMap fun v =>
    match v with
    | some (.dtAware _ z) => some z
    | _ => none

/-- Do all aware cells of the column carry one common zone? -/
def colOneZone (vals : List (Option CellVal)) : Bool :=
  match colZones vals with
  | [] => true
  | z :: zs => zs.all fun z2 => z2 = z

/-- Pandas `pd.to_datetime` on a column: `some false` for a successfully parsed
naive series, `some true` for a successfully parsed aware series (all
aware cells in one zone), `none` when parsing raises. -/
def toDatetime? (vals : List (Option CellVal)) : Option Bool :=
  if colNaive vals then some false
  else if colAware vals ∧ colOneZone vals then some true
  else none

/-- The chain `.dt.tz_localize('UTC').dt.tz_convert('America/Montreal')` on one
naive cell: the naive reading is interpreted as UTC wall time, so the
instant is unchanged, and the zone becomes the fixed target zone. -/
def localizeUTCConvert (v : Option CellVal) : Option CellVal :=
  match v with
  | some (.dtNaive t) => some (.dtAware t "America/Montreal")
  | x => x

/-- The conversion `.dt.tz_convert('America/Montreal')` on one aware cell:
instant-preserving change of zone. -/
def convertMontreal (v : Option CellVal) : Option CellVal :=
  match v with
  | some (.dtAware t _) => some (.dtAware t "America/Montreal")
  | x => x

/-- Lines 122–130, for one of the two reserved timestamp columns: parse
the column as datetimes and convert it to America/Montreal, assuming UTC
when the series carries no timezone; on a missing column or a parse
failure the `except` branch prints a diagnostic and leaves the frame
unchanged.  Returns the updated frame and the diagnostics printed. -/
def tzNormalizeCol (F : Frame) (c : String) : Frame × List String :=
  match F.getCol? c with
  | none => (F, ["Column " ++ c ++ " does not Exist"])
  | some vals =>
    match toDatetime? vals with
    | none => (F, ["Column " ++ c ++ " does not Exist"])
    | some aware =>
      if aware then (F.setCol c (vals.map convertMontreal), [])
      else (F.setCol c (vals.map localizeUTCConvert), [])

/-! ## Column renaming (lines 133–136) -/

/-- Line 134: `{entry['name']: entry['label'] for entry in table_columns}`.
In a Python dict comprehension the last entry with a given name wins. -/
def mappingLookup (tableColumns : List ColumnSpec) (n : String) :
    Option String :=
  (tableColumns.reverse.find? fun e => e.name = n).map (·.label)

/-- Pandas `df.rename(columns=...)`: rename every column whose name the mapping
covers; others keep their name. -/
def Frame.renameWith (F : Frame) (f : String → Option String) : Frame :=
  ⟨F.nRows, F.cols.map fun p => ((f p.1).getD p.1, p.2)⟩

/-- The fixed second rename of line 136. -/
def reservedRename (n : String) : Option String :=
  if n = "_createdAt" then some "Created_At"
  else if n = "_updatedAt" then some "Updated_At"
  else none

/-- Lines 133–136: the metadata-label rename followed by the fixed rename
of the two reserved timestamp columns. -/
def renameStage (F : Frame) (tableColumns : List ColumnSpec) : Frame :=
  (F.renameWith (mappingLookup tableColumns)).renameWith reservedRename

/-- Lines 139–140 applied to a frame. -/
def finalNormalize (F : Frame) : Frame :=
  let F1 : Frame := ⟨F.nRows, F.cols.map fun p => (capitalizeName p.1, p.2)⟩
  ⟨F1.nRows, F1.cols.map fun p => (replaceSpaces p.1, p.2)⟩

/-- Lines 111–140: everything after the fetch loop.  Returns the final
frame and the diagnostics printed by the timestamp stage. -/
def postProcess (rs : List Rec) (tableColumns : List ColumnSpec)
    (rename_columns : Bool) : Frame × List String :=
  let df := constructFrame rs tableColumns
  let r1 := tzNormalizeCol df "_createdAt"
  let r2 := tzNormalizeCol r1.1 "_updatedAt"
  let df2 := if rename_columns then renameStage r2.1 tableColumns else r2.1
  (finalNormalize df2, r1.2 ++ r2.2)

/-! ## The paginated fetch loop (lines 81–108) -/

/-- Line 81: `max_limit / 1000 if max_limit != 0 else 99999999`, the
float division modelled by the exact rational. -/
def maxIterations (max_limit : Int) : ℚ :=
  if max_limit ≠ 0 then Rat.divInt max_limit 1000 else 99999999

/-- Line 85: `max_limit if max_limit > 0 and max_limit < 1000 else 1000`. -/
def defaultLimit (max_limit : Int) : Nat :=
  if 0 < max_limit ∧ max_limit < 1000 then max_limit.toNat else 1000

/-- Fuel strictly exceeding the number of passes any run of the loop can
perform (see the module docstring). -/
def loopFuel (max_limit : Int) : Nat := 100000000 + max_limit.toNat

/-- The mutable state of the fetch loop.  `reqLog` records every records
request issued, as (limit, offset) pairs. -/
structure FetchState where
  iteration : Nat
  offset : Nat
  all_records : List Rec
  reqLog : List (Nat × Nat)
  diags : List String
  deriving DecidableEq

/-- Lines 90–108: the `while True` pagination loop.  Each pass issues one
request; a 200 response appends its records and either stops (short page,
or iteration count at the cap) or advances the offset by the page size; a
non-200 response prints a diagnostic and stops. -/
def fetchGo (server : Nat → Nat → Nat × List Rec) (default_limit : Nat)
    (max_iterations : ℚ) : Nat → FetchState → FetchState
  | 0, s => s
  | fuel + 1, s =>
    let resp := server default_limit s.offset
    let log := s.reqLog ++ [(default_limit, s.offset)]
    if resp.1 = 200 then
      let it := s.iteration + 1
      let recs := s.all_records ++ resp.2
      if resp.2.length < default_limit ∨
          ((it : ℕ) : ℚ) ≥ max_iterations then
        ⟨it, s.offset, recs, log, s.diags⟩
      else
        fetchGo server default_limit max_iterations fuel
          ⟨it, s.offset + default_limit, recs, log, s.diags⟩
    else
      ⟨s.iteration, s.offset, s.all_records, log,
        s.diags ++ ["Error: " ++ toString resp.1]⟩

/-! ## The whole operation -/

/-- How a call terminates.  `valueError` and `attributeError` are raised
exceptions (lines 28 and 31); `invalidCredentials`, `tableNotFound` carry
the descriptive strings returned at lines 48 and 66; `limitIntError` is
the uncaught `ValueError` from `int()` at line 78 on a malformed `limit`
value; `table` is the normal DataFrame return. -/
inductive ImportOutcome where
  | valueError
  | attributeError
  | invalidCredentials (msg : String)
  | tableNotFound (msg : String)
  | limitIntError
  | table (df : Frame)
  deriving DecidableEq

/-- The observable result of one call: its outcome, the number of
table-listing requests issued, the (limit, offset) log of records
requests issued, and every diagnostic printed. -/
structure ImportRun where
  outcome : ImportOutcome
  listingRequests : Nat
  pageLog : List (Nat × Nat)
  diagnostics : List String
  deriving DecidableEq

/-- Line 55/59: the reference value the listing is matched against. -/
def refMatch (table_id table_name : Option String) : String :=
  match table_id with
  | some s => s
  | none => table_name.getD ""

/-- Lines 74–142 for a resolved table: parse the `limit` from the records
URL, run the pagination loop, post-process, and assemble the run. -/
def fetchPhase (w : TulipWorld) (inst : String) (info : TableInfo)
    (rename_columns : Bool) (query : String) : ImportRun :=
  let url := recordsUrl inst (info.id?.getD "None") query
  match parseLimit url with
  | none => ⟨.limitIntError, 1, [], []⟩
  | some max_limit =>
    let final :=
      fetchGo w.records (defaultLimit max_limit) (maxIterations max_limit)
        (loopFuel max_limit) ⟨0, 0, [], [], []⟩
    let post := postProcess final.all_records info.columns rename_columns
    ⟨.table post.1, 1, final.reqLog, final.diags ++ post.2⟩

/-- The embedding of `import_tulip_table` (lines 6–142). -/
def import_tulip_table (w : TulipWorld) (inst : String)
    (authorization : Option String) (table_id table_name : Option String)
    (rename_columns : Bool) (query : String) : ImportRun :=
  if (table_name = none ∧ table_id = none) ∨
      (table_name ≠ none ∧ table_id ≠ none) then
    ⟨.valueError, 0, [], []⟩
  else
    match authorization with
    | none => ⟨.attributeError, 0, [], []⟩
    | some _ =>
      if w.listingStatus ≠ 200 then
        ⟨.invalidCredentials "Invalid Credentials, please update and try again",
          1, [], []⟩
      else
        let m := refMatch table_id table_name
        match findTable w.listing table_id.isSome m with
        | none =>
          ⟨.tableNotFound ("Table " ++ m ++
              " not found, please check the table name or ID in Tulip and type it as is"),
            1, [], []⟩
        | some info => fetchPhase w inst info rename_columns query

/-! ## Character-level lemmas -/

theorem char_toNat_ofNat_of_lt {n : Nat} (h : n < 55296) :
    (Char.ofNat n).toNat = n := by
  rw [Char.ofNat, dif_pos (Or.inl h)]
  rfl

theorem char_eq_of_toNat_eq {a b : Char} (h : a.toNat = b.toNat) : a = b := by
  apply Char.ext
  exact UInt32.toNat.inj h

theorem pyToLower_toNat (c : Char) :
    (pyToLower c).toNat =
      if 65 ≤ c.toNat ∧ c.toNat ≤ 90 then c.toNat + 32 else c.toNat := by
  rw [pyToLower]
  split
  · next h => exact char_toNat_ofNat_of_lt (by omega)
  · rfl

theorem pyToUpper_toNat (c : Char) :
    (pyToUpper c).toNat =
      if 97 ≤ c.toNat ∧ c.toNat ≤ 122 then c.toNat - 32 else c.toNat := by
  rw [pyToUpper]
  split
  · next h => exact char_toNat_ofNat_of_lt (by omega)
  · rfl

theorem pyIsAlpha_pyToLower (c : Char) :
    pyIsAlpha (pyToLower c) = pyIsAlpha c := by
  simp only [pyIsAlpha, decide_eq_decide, pyToLower_toNat]
  split <;> omega

theorem pyIsAlpha_pyToUpper (c : Char) :
    pyIsAlpha (pyToUpper c) = pyIsAlpha c := by
  simp only [pyIsAlpha, decide_eq_decide, pyToUpper_toNat]
  split <;> omega

theorem pyToLower_pyToLower (c : Char) :
    pyToLower (pyToLower c) = pyToLower c := by
  apply char_eq_of_toNat_eq
  rw [pyToLower_toNat, pyToLower_toNat]
  split_ifs <;> omega

theorem pyToUpper_pyToUpper (c : Char) :
    pyToUpper (pyToUpper c) = pyToUpper c := by
  apply char_eq_of_toNat_eq
  rw [pyToUpper_toNat, pyToUpper_toNat]
  split_ifs <;> omega

theorem pyIsAlpha_pyTitleMap (b : Bool) (c : Char) :
    pyIsAlpha (pyTitleMap b c) = pyIsAlpha c := by
  rw [pyTitleMap]
  split_ifs with h1 h2 <;>
    simp [pyIsAlpha_pyToLower, pyIsAlpha_pyToUpper]

theorem pyTitleMap_idem (b : Bool) (c : Char) :
    pyTitleMap b (pyTitleMap b c) = pyTitleMap b c := by
  by_cases ha : pyIsAlpha c = true
  · cases b with
    | true =>
      have h1 : pyTitleMap true c = pyToLower c := by
        simp [pyTitleMap, ha]
      rw [h1, pyTitleMap, if_pos (by rw [pyIsAlpha_pyToLower]; exact ha)]
      simp [pyToLower_pyToLower]
    | false =>
      have h1 : pyTitleMap false c = pyToUpper c := by
        simp [pyTitleMap, ha]
      rw [h1, pyTitleMap, if_pos (by rw [pyIsAlpha_pyToUpper]; exact ha)]
      simp [pyToUpper_pyToUpper]
  · have h1 : pyTitleMap b c = c := by
      simp [pyTitleMap, ha]
    rw [h1]
    exact h1

theorem pyTitleAux_idem (l : List Char) :
    ∀ b, pyTitleAux b (pyTitleAux b l) = pyTitleAux b l := by
  induction l with
  | nil => intro b; rfl
  | cons c cs ih =>
    intro b
    simp only [pyTitleAux, pyTitleMap_idem, pyIsAlpha_pyTitleMap]
    rw [ih (pyIsAlpha c)]

theorem pyIsAlpha_space_false : pyIsAlpha ' ' = false := by decide

theorem pyIsAlpha_underscore_false : pyIsAlpha '_' = false := by decide

theorem pyIsAlpha_pySpaceToUnderscore (c : Char) :
    pyIsAlpha (pySpaceToUnderscore c) = pyIsAlpha c := by
  rw [pySpaceToUnderscore]
  split
  · next h => rw [h]; decide
  · rfl

theorem pyTitleMap_ne_space (b : Bool) (c : Char) (h : c ≠ ' ') :
    pyTitleMap b c ≠ ' ' := by
  intro he
  have := pyIsAlpha_pyTitleMap b c
  rw [he] at this
  by_cases ha : pyIsAlpha c = true
  · rw [ha] at this
    exact absurd this.symm (by decide)
  · have hc : pyTitleMap b c = c := by simp [pyTitleMap, ha]
    rw [hc] at he
    exact h he

theorem pyTitleMap_pySpaceToUnderscore (b : Bool) (c : Char) :
    pyTitleMap b (pySpaceToUnderscore c) =
      pySpaceToUnderscore (pyTitleMap b c) := by
  by_cases h : c = ' '
  · subst h
    have h1 : pySpaceToUnderscore ' ' = '_' := by decide
    have h2 : pyTitleMap b ' ' = ' ' := by
      simp [pyTitleMap, pyIsAlpha_space_false]
    have h3 : pyTitleMap b '_' = '_' := by
      simp [pyTitleMap, pyIsAlpha_underscore_false]
    rw [h1, h2, h3, h1]
  · have h1 : pySpaceToUnderscore c = c := by
      rw [pySpaceToUnderscore, if_neg h]
    have h2 : pySpaceToUnderscore (pyTitleMap b c) = pyTitleMap b c := by
      rw [pySpaceToUnderscore, if_neg (pyTitleMap_ne_space b c h)]
    rw [h1, h2]

theorem pyTitleAux_map_pySpaceToUnderscore (l : List Char) :
    ∀ b, pyTitleAux b (l.map pySpaceToUnderscore) =
      (pyTitleAux b l).map pySpaceToUnderscore := by
  induction l with
  | nil => intro b; rfl
  | cons c cs ih =>
    intro b
    simp only [List.map_cons, pyTitleAux, pyTitleMap_pySpaceToUnderscore,
      pyIsAlpha_pySpaceToUnderscore]
    rw [ih (pyIsAlpha c)]

theorem pySpaceToUnderscore_idem (c : Char) :
    pySpaceToUnderscore (pySpaceToUnderscore c) = pySpaceToUnderscore c := by
  by_cases h : c = ' '
  · subst h
    decide
  · simp [pySpaceToUnderscore, h]

/-! ## String-level normalization lemmas -/

theorem pyTitle_replaceSpaces (s : String) :
    pyTitle (replaceSpaces s) = replaceSpaces (pyTitle s) :=
  congrArg String.mk (pyTitleAux_map_pySpaceToUnderscore s.data false)

theorem pyTitle_pyTitle (s : String) : pyTitle (pyTitle s) = pyTitle s :=
  congrArg String.mk (pyTitleAux_idem s.data false)

theorem replaceSpaces_replaceSpaces (s : String) :
    replaceSpaces (replaceSpaces s) = replaceSpaces s := by
  have h : ∀ l : List Char,
      (l.map pySpaceToUnderscore).map pySpaceToUnderscore =
        l.map pySpaceToUnderscore := by
    intro l
    rw [List.map_map]
    exact List.map_congr_left fun c _ => pySpaceToUnderscore_idem c
  exact congrArg String.mk (h s.data)

/-- One column name of lines 139–140. -/
def normalizeName (s : String) : String := replaceSpaces (capitalizeName s)

theorem normalizeColumns_eq_map (names : List String) :
    normalizeColumns names = names.map normalizeName := by
  rw [normalizeColumns, List.map_map]
  rfl

theorem normalizeName_idem (s : String) :
    normalizeName (normalizeName s) = normalizeName s := by
  by_cases h : s = "ID"
  · subst h
    decide
  · have h1 : normalizeName s = replaceSpaces (pyTitle s) := by
      rw [normalizeName, capitalizeName, if_neg h]
    by_cases h2 : normalizeName s = "ID"
    · rw [h2]
      decide
    · rw [normalizeName, capitalizeName, if_neg h2, h1,
        pyTitle_replaceSpaces, replaceSpaces_replaceSpaces, pyTitle_pyTitle]

/-! ## Fetch-loop lemmas -/

theorem fetchGo_succ_error (server : Nat → Nat → Nat × List Rec) (L : Nat)
    (cap : ℚ) (fuel : Nat) (s : FetchState)
    (h : (server L s.offset).1 ≠ 200) :
    fetchGo server L cap (fuel + 1) s =
      ⟨s.iteration, s.offset, s.all_records, s.reqLog ++ [(L, s.offset)],
        s.diags ++ ["Error: " ++ toString (server L s.offset).1]⟩ := by
  simp only [fetchGo]
  rw [if_neg h]

theorem fetchGo_succ_break (server : Nat → Nat → Nat × List Rec) (L : Nat)
    (cap : ℚ) (fuel : Nat) (s : FetchState)
    (h200 : (server L s.offset).1 = 200)
    (hbrk : (server L s.offset).2.length < L ∨
      ((s.iteration + 1 : ℕ) : ℚ) ≥ cap) :
    fetchGo server L cap (fuel + 1) s =
      ⟨s.iteration + 1, s.offset, s.all_records ++ (server L s.offset).2,
        s.reqLog ++ [(L, s.offset)], s.diags⟩ := by
  simp only [fetchGo]
  rw [if_pos h200, if_pos hbrk]

theorem fetchGo_succ_continue (server : Nat → Nat → Nat × List Rec) (L : Nat)
    (cap : ℚ) (fuel : Nat) (s : FetchState)
    (h200 : (server L s.offset).1 = 200)
    (hcont : ¬((server L s.offset).2.length < L ∨
      ((s.iteration + 1 : ℕ) : ℚ) ≥ cap)) :
    fetchGo server L cap (fuel + 1) s =
      fetchGo server L cap fuel
        ⟨s.iteration + 1, s.offset + L,
          s.all_records ++ (server L s.offset).2,
          s.reqLog ++ [(L, s.offset)], s.diags⟩ := by
  simp only [fetchGo]
  rw [if_pos h200, if_neg hcont]

theorem fetchGo_fullPages (server : Nat → Nat → Nat × List Rec) (L : Nat)
    (cap : ℚ) :
    ∀ (n : Nat) (pages : Nat → List Rec) (fuel : Nat) (s : FetchState),
      n ≤ fuel →
      (∀ k, k < n → server L (s.offset + k * L) = (200, pages k)) →
      (∀ k, k < n → (pages k).length = L) →
      (∀ k, k < n → ((s.iteration + k + 1 : ℕ) : ℚ) < cap) →
      fetchGo server L cap fuel s =
        fetchGo server L cap (fuel - n)
          ⟨s.iteration + n, s.offset + n * L,
            s.all_records ++ ((List.range n).map pages).flatten,
            s.reqLog ++ (List.range n).map fun k => (L, s.offset + k * L),
            s.diags⟩ := by
  intro n
  induction n with
  | zero =>
    intro pages fuel s _ _ _ _
    simp
  | succ n ih =>
    intro pages fuel s hfuel hserv hlen hcap
    have ihr := ih pages fuel s (by omega)
      (fun k hk => hserv k (by omega))
      (fun k hk => hlen k (by omega))
      (fun k hk => hcap k (by omega))
    rw [ihr]
    obtain ⟨g, hg⟩ : ∃ g, fuel - n = g + 1 := ⟨fuel - n - 1, by omega⟩
    rw [hg]
    have h0 : server L (s.offset + n * L) = (200, pages n) :=
      hserv n (by omega)
    have hstep := fetchGo_succ_continue server L cap g
      ⟨s.iteration + n, s.offset + n * L,
        s.all_records ++ ((List.range n).map pages).flatten,
        s.reqLog ++ (List.range n).map fun k => (L, s.offset + k * L),
        s.diags⟩
      (show (server L (s.offset + n * L)).1 = 200 by rw [h0])
      (show ¬((server L (s.offset + n * L)).2.length < L ∨
          ((s.iteration + n + 1 : ℕ) : ℚ) ≥ cap) by
        rw [h0]
        push_neg
        refine ⟨?_, ?_⟩
        · simp [hlen n (by omega)]
        · exact hcap n (by omega))
    rw [hstep]
    have hg2 : fuel - (n + 1) = g := by omega
    rw [hg2]
    congr 1
    rw [h0]
    simp only [FetchState.mk.injEq]
    refine ⟨by omega, by ring, ?_, ?_, trivial⟩
    · rw [List.range_succ, List.map_append, List.flatten_append,
        List.append_assoc]
      simp
    · rw [List.range_succ, List.map_append, List.append_assoc]
      simp

/-- When the server keeps answering 200 with full pages and the sentinel
cap 99999999 is reached after `m + 1` further successful passes, the loop
issues exactly `m + 1` more requests and stops. -/
theorem fetchGo_capped_len (server : Nat → Nat → Nat × List Rec) (L : Nat) :
    ∀ (m : Nat) (pages : Nat → List Rec) (fuel : Nat) (s : FetchState),
      m + 1 ≤ fuel →
      s.iteration + m + 1 = 99999999 →
      (∀ k, k ≤ m → server L (s.offset + k * L) = (200, pages k)) →
      (∀ k, k ≤ m → (pages k).length = L) →
      (fetchGo server L 99999999 fuel s).reqLog.length =
        s.reqLog.length + (m + 1) := by
  intro m
  induction m with
  | zero =>
    intro pages fuel s hfuel hit hserv hlen
    obtain ⟨g, rfl⟩ : ∃ g, fuel = g + 1 := ⟨fuel - 1, by omega⟩
    rw [fetchGo_succ_break server L 99999999 g s
      (by simpa using congrArg Prod.fst (hserv 0 (by omega)))
      (Or.inr (by
        have hit2 : s.iteration + 1 = 99999999 := by omega
        rw [hit2]
        norm_num))]
    simp
  | succ m ih =>
    intro pages fuel s hfuel hit hserv hlen
    obtain ⟨g, rfl⟩ : ∃ g, fuel = g + 1 := ⟨fuel - 1, by omega⟩
    have h0 : server L s.offset = (200, pages 0) := by
      have h := hserv 0 (by omega)
      simpa using h
    rw [fetchGo_succ_continue server L 99999999 g s
      (by rw [h0])
      (by
        push_neg
        constructor
        · rw [h0]
          show L ≤ (pages 0).length
          rw [hlen 0 (by omega)]
        · have hlt : ((s.iteration + 1 : ℕ) : ℚ) < ((99999999 : ℕ) : ℚ) := by
            have : s.iteration + 1 < 99999999 := by omega
            exact_mod_cast this
          simpa using hlt)]
    have hrec := ih (fun k => pages (k + 1)) g
      ⟨s.iteration + 1, s.offset + L, s.all_records ++ (server L s.offset).2,
        s.reqLog ++ [(L, s.offset)], s.diags⟩
      (by omega)
      (by show s.iteration + 1 + m + 1 = 99999999; omega)
      (by
        intro k hk
        show server L ((s.offset + L) + k * L) = (200, pages (k + 1))
        have e : s.offset + L + k * L = s.offset + (k + 1) * L := by ring
        rw [e]
        exact hserv (k + 1) (by omega))
      (fun k hk => hlen (k + 1) (by omega))
    rw [hrec]
    show (s.reqLog ++ [(L, s.offset)]).length + (m + 1) = _
    rw [List.length_append]
    simp
    omega

/-! ## Pipeline plumbing lemmas -/

theorem import_eq_fetchPhase (w : TulipWorld) (inst tok : String)
    (tid tname : Option String) (rn : Bool) (q : String) (info : TableInfo)
    (hvalid : ¬((tname = none ∧ tid = none) ∨ (tname ≠ none ∧ tid ≠ none)))
    (hstat : w.listingStatus = 200)
    (hfind : findTable w.listing tid.isSome (refMatch tid tname) = some info) :
    import_tulip_table w inst (some tok) tid tname rn q =
      fetchPhase w inst info rn q := by
  rw [import_tulip_table, if_neg hvalid]
  have h2 : ¬ (w.listingStatus ≠ 200) := by simp [hstat]
  simp only [h2, if_false, hfind]

/-- The records requests a run issues are exactly the loop's request log
(for a query whose `limit` parses). -/
theorem fetchPhase_pageLog (w : TulipWorld) (inst : String)
    (info : TableInfo) (rn : Bool) (q : String) (ml : Int)
    (h : parseLimit (recordsUrl inst (info.id?.getD "None") q) = some ml) :
    (fetchPhase w inst info rn q).pageLog =
      (fetchGo w.records (defaultLimit ml) (maxIterations ml) (loopFuel ml)
        ⟨0, 0, [], [], []⟩).reqLog := by
  simp only [fetchPhase, h]

theorem Frame.nRows_setCol (F : Frame) (c : String)
    (vals : List (Option CellVal)) : (F.setCol c vals).nRows = F.nRows := by
  rw [Frame.setCol]
  split <;> rfl

theorem nRows_tzNormalizeCol (F : Frame) (c : String) :
    (tzNormalizeCol F c).1.nRows = F.nRows := by
  rw [tzNormalizeCol]
  split
  · rfl
  · split
    · rfl
    · split <;> simp [Frame.nRows_setCol]

theorem nRows_renameStage (F : Frame) (tc : List ColumnSpec) :
    (renameStage F tc).nRows = F.nRows := rfl

theorem nRows_finalNormalize (F : Frame) :
    (finalNormalize F).nRows = F.nRows := rfl

theorem recordKeys_ne_nil_imp (rs : List Rec) (h : recordKeys rs ≠ []) :
    rs ≠ [] := by
  intro he
  subst he
  exact h rfl

theorem frameOfRecords_isEmpty_false (rs : List Rec)
    (h : recordKeys rs ≠ []) : (frameOfRecords rs).isEmpty = false := by
  have hne : rs ≠ [] := recordKeys_ne_nil_imp rs h
  rw [frameOfRecords, Frame.isEmpty]
  simp [List.length_eq_zero, hne, h]

theorem constructFrame_of_keys (rs : List Rec) (tc : List ColumnSpec)
    (h : recordKeys rs ≠ []) : constructFrame rs tc = frameOfRecords rs := by
  rw [constructFrame]
  simp [frameOfRecords_isEmpty_false rs h]

theorem postProcess_nRows (rs : List Rec) (tc : List ColumnSpec) (rn : Bool)
    (h : recordKeys rs ≠ []) :
    (postProcess rs tc rn).1.nRows = rs.length := by
  simp only [postProcess, constructFrame_of_keys rs tc h]
  cases rn <;>
    simp [nRows_finalNormalize, nRows_renameStage, nRows_tzNormalizeCol,
      frameOfRecords]

/-! ## Rename-stage lemmas -/

theorem colNames_renameWith (F : Frame) (f : String → Option String) :
    (F.renameWith f).colNames = F.colNames.map fun n => (f n).getD n := by
  simp [Frame.renameWith, Frame.colNames, List.map_map]

theorem mappingLookup_eq_none (tc : List ColumnSpec) (n : String)
    (h : ∀ e ∈ tc, e.name ≠ n) : mappingLookup tc n = none := by
  have hf : tc.reverse.find? (fun e => e.name = n) = none := by
    rw [List.find?_eq_none]
    intro e he
    simp only [decide_eq_true_eq]
    exact h e (List.mem_reverse.mp he)
  rw [mappingLookup, hf]
  rfl

theorem mappingLookup_label_mem (tc : List ColumnSpec) (n l : String)
    (h : mappingLookup tc n = some l) : ∃ e ∈ tc, e.label = l := by
  rw [mappingLookup] at h
  obtain ⟨e, he, hl⟩ := Option.map_eq_some'.mp h
  exact ⟨e, List.mem_reverse.mp (List.mem_of_find?_eq_some he), hl⟩

theorem setCol_append_of_notin (F : Frame) (c : String)
    (vals : List (Option CellVal)) (h : ∀ p ∈ F.cols, p.1 ≠ c) :
    F.setCol c vals = ⟨F.nRows, F.cols ++ [(c, vals)]⟩ := by
  rw [Frame.setCol, if_neg]
  intro hany
  obtain ⟨p, hp, hpc⟩ := List.any_eq_true.mp hany
  exact h p hp (by simpa using hpc)

/-! ## Claim theorems -/

/-- **C3.**  A call in which the table identifier and the table display
name are both unset or both set raises `ValueError` (lines 27–28) and
issues no network request; a call with exactly one of the two supplied
never raises that error. -/
theorem c3_exactly_one_reference (w : TulipWorld) (inst : String)
    (auth : Option String) (tid tname : Option String) (rn : Bool)
    (q : String) :
    (((tname = none ∧ tid = none) ∨ (tname ≠ none ∧ tid ≠ none)) →
      import_tulip_table w inst auth tid tname rn q =
        ⟨.valueError, 0, [], []⟩) ∧
    (¬((tname = none ∧ tid = none) ∨ (tname ≠ none ∧ tid ≠ none)) →
      (import_tulip_table w inst auth tid tname rn q).outcome ≠
        .valueError) := by
  constructor
  · intro h
    rw [import_tulip_table.eq_def, if_pos h]
  · intro h
    rw [import_tulip_table.eq_def, if_neg h]
    cases auth with
    | none => simp
    | some tok =>
      by_cases hs : w.listingStatus ≠ 200
      · simp [hs]
      · simp only [hs, if_false]
        cases hf : findTable w.listing tid.isSome (refMatch tid tname) with
        | none => simp [hf]
        | some info =>
          simp only [hf]
          cases hp : parseLimit (recordsUrl inst (info.id?.getD "None") q) with
          | none => simp [fetchPhase, hp]
          | some ml => simp [fetchPhase, hp]

/-- Witness for C3: with both references unset the call is exactly the
raised-`ValueError` run with no requests; with only an id supplied the
outcome is not `ValueError`. -/
theorem c3_exactly_one_reference_witness :
    import_tulip_table ⟨200, [], fun _ _ => (200, [])⟩ "i" (some "t")
        none none true "" = ⟨.valueError, 0, [], []⟩ ∧
    (import_tulip_table ⟨200, [], fun _ _ => (200, [])⟩ "i" (some "t")
        (some "x") none true "").outcome ≠ .valueError := by
  constructor
  · exact (c3_exactly_one_reference _ _ _ _ _ _ _).1 (Or.inl ⟨rfl, rfl⟩)
  · exact (c3_exactly_one_reference _ _ _ _ _ _ _).2 (by simp)

/-- **C10.**  With exactly one table reference supplied and the bearer
credential left `None` (its default), line 31 (`authorization.encode()`)
raises `AttributeError` before any request is issued; the credential is
never validated and no descriptive failure value is produced. -/
theorem c10_missing_credential (w : TulipWorld) (inst : String)
    (tid tname : Option String) (rn : Bool) (q : String)
    (h : ¬((tname = none ∧ tid = none) ∨ (tname ≠ none ∧ tid ≠ none))) :
    import_tulip_table w inst none tid tname rn q =
      ⟨.attributeError, 0, [], []⟩ := by
  rw [import_tulip_table, if_neg h]

/-- Witness for C10 at a concrete input. -/
theorem c10_missing_credential_witness :
    import_tulip_table ⟨200, [], fun _ _ => (200, [])⟩ "i" none (some "t1")
      none true "" = ⟨.attributeError, 0, [], []⟩ :=
  c10_missing_credential _ _ _ _ _ _ (by simp)

/-- **C4.**  With exactly one reference supplied (and a credential), a
non-success listing status makes the call return the descriptive
invalid-credentials string (line 48), and a listing with no entry whose
id or label equals the reference makes it return the descriptive
not-found string carrying the reference (line 66); neither raises, and no
table is returned. -/
theorem c4_listing_failures (w : TulipWorld) (inst tok : String)
    (tid tname : Option String) (rn : Bool) (q : String)
    (hvalid : ¬((tname = none ∧ tid = none) ∨ (tname ≠ none ∧ tid ≠ none))) :
    (w.listingStatus ≠ 200 →
      import_tulip_table w inst (some tok) tid tname rn q =
        ⟨.invalidCredentials
          "Invalid Credentials, please update and try again", 1, [], []⟩) ∧
    (w.listingStatus = 200 →
      (∀ r ∈ w.listing, r.id? ≠ some (refMatch tid tname) ∧
        r.label? ≠ some (refMatch tid tname)) →
      import_tulip_table w inst (some tok) tid tname rn q =
        ⟨.tableNotFound ("Table " ++ refMatch tid tname ++
          " not found, please check the table name or ID in Tulip and type it as is"),
          1, [], []⟩) := by
  constructor
  · intro hs
    rw [import_tulip_table, if_neg hvalid]
    simp [hs]
  · intro hs hnone
    rw [import_tulip_table, if_neg hvalid]
    have h2 : ¬ (w.listingStatus ≠ 200) := by simp [hs]
    have hfind : findTable w.listing tid.isSome (refMatch tid tname) =
        none := by
      rw [findTable, List.find?_eq_none]
      intro r hr
      simp only [decide_eq_true_eq]
      cases hid : tid.isSome <;> simp
      · exact (hnone r hr).2
      · exact (hnone r hr).1
    simp only [h2, if_false, hfind]

/-- Witness for C4 at concrete inputs (one non-success listing, one
no-match listing). -/
theorem c4_listing_failures_witness :
    import_tulip_table ⟨403, [], fun _ _ => (200, [])⟩ "i" (some "t")
        (some "T1") none true "" =
      ⟨.invalidCredentials
        "Invalid Credentials, please update and try again", 1, [], []⟩ ∧
    import_tulip_table ⟨200, [⟨some "a", some "A", []⟩],
        fun _ _ => (200, [])⟩ "i" (some "t") (some "T1") none true "" =
      ⟨.tableNotFound
        "Table T1 not found, please check the table name or ID in Tulip and type it as is",
        1, [], []⟩ := by
  constructor
  · exact (c4_listing_failures _ _ _ _ _ _ _ (by simp)).1 (by decide)
  · exact ((c4_listing_failures _ _ _ _ _ _ _ (by simp)).2 rfl
      (by decide)).trans (by decide)

/-- **C9.**  The final column-name normalization of lines 139–140 (always
applied, independent of the rename flag) is idempotent, and in particular
leaves `"ID"` and `"Foo_Bar"` unchanged. -/
theorem c9_normalization_idempotent :
    (∀ names : List String,
      normalizeColumns (normalizeColumns names) = normalizeColumns names) ∧
    normalizeColumns ["ID", "Foo_Bar"] = ["ID", "Foo_Bar"] := by
  constructor
  · intro names
    rw [normalizeColumns_eq_map, normalizeColumns_eq_map, List.map_map]
    exact List.map_congr_left fun t _ => normalizeName_idem t
  · decide

/-- **C8.**  For a reserved timestamp column (lines 122–130): a parsed
naive series is localized as UTC — the instant is the naive reading,
unchanged — and converted to America/Montreal; a parsed aware series is
converted directly, instant preserved; a missing column or a parse
failure leaves the frame unchanged, emits the diagnostic, and the
operation does not fail.  Wall-clock rendering of an aware instant in the
target zone (the daylight-saving-correct offset) belongs to the timezone
database, modelled as instant-preserving zone re-tagging. -/
theorem c8_timestamp_normalization (F : Frame) (c : String)
    (vals : List (Option CellVal)) :
    ((F.getCol? c = some vals → colNaive vals = true →
        tzNormalizeCol F c =
          (F.setCol c (vals.map localizeUTCConvert), [])) ∧
      (F.getCol? c = some vals → toDatetime? vals = some true →
        tzNormalizeCol F c =
          (F.setCol c (vals.map convertMontreal), []))) ∧
    ((∀ t : Int, localizeUTCConvert (some (.dtNaive t)) =
        some (.dtAware t "America/Montreal")) ∧
      (∀ t : Int, ∀ z : String, convertMontreal (some (.dtAware t z)) =
        some (.dtAware t "America/Montreal"))) ∧
    ((F.getCol? c = none →
        tzNormalizeCol F c = (F, ["Column " ++ c ++ " does not Exist"])) ∧
      (F.getCol? c = some vals → toDatetime? vals = none →
        tzNormalizeCol F c = (F, ["Column " ++ c ++ " does not Exist"]))) := by
  refine ⟨⟨?_, ?_⟩, ⟨fun t => rfl, fun t z => rfl⟩, ⟨?_, ?_⟩⟩
  · intro hc hn
    have hdt : toDatetime? vals = some false := by
      rw [toDatetime?, if_pos hn]
    simp [tzNormalizeCol, hc, hdt]
  · intro hc ha
    simp [tzNormalizeCol, hc, ha]
  · intro hc
    simp [tzNormalizeCol, hc]
  · intro hc hdt
    simp [tzNormalizeCol, hc, hdt]

/-- Witness for C8: a naive column is re-tagged UTC→Montreal with its
instant unchanged; a missing column only emits the diagnostic. -/
theorem c8_timestamp_normalization_witness :
    tzNormalizeCol ⟨2, [("_createdAt", [some (.dtNaive 3), none])]⟩
        "_createdAt" =
      (⟨2, [("_createdAt",
        [some (.dtAware 3 "America/Montreal"), none])]⟩, []) ∧
    tzNormalizeCol ⟨1, [("x", [some (.scalar "v")])]⟩ "_createdAt" =
      (⟨1, [("x", [some (.scalar "v")])]⟩,
        ["Column _createdAt does not Exist"]) := by
  constructor
  · exact ((c8_timestamp_normalization
      ⟨2, [("_createdAt", [some (.dtNaive 3), none])]⟩ "_createdAt"
      [some (.dtNaive 3), none]).1.1 (by decide) (by decide)).trans
      (by decide)
  · exact (c8_timestamp_normalization ⟨1, [("x", [some (.scalar "v")])]⟩
      "_createdAt" []).2.2.1 (by decide)

/-- **C7 counterexample.**  The claim says the reserved timestamp columns
are renamed to the fixed labels regardless of whether the general
renaming found a label for them.  When the metadata maps `_createdAt`
itself, line 135 renames the column first and the fixed rename of line
136 no longer finds it: the column ends up `"Foo"`, not `"Created_At"`. -/
theorem c7_counterexample :
    (renameStage ⟨1, [("_createdAt", [none])]⟩
        [⟨"_createdAt", "Foo"⟩]).colNames = ["Foo"] ∧
    "Created_At" ∉ (renameStage ⟨1, [("_createdAt", [none])]⟩
        [⟨"_createdAt", "Foo"⟩]).colNames := by
  decide

/-- **C7 (amended).**  When the rename option is enabled, every column is
renamed from its internal name to its display label per the metadata
(last entry wins, unmapped columns keep their name), and the reserved
timestamp columns become `"Created_At"`/`"Updated_At"` — provided the
metadata neither renames a reserved timestamp column itself nor renames
another column to a reserved timestamp name. -/
theorem c7_amended_rename (F : Frame) (tc : List ColumnSpec)
    (hres : ∀ e ∈ tc, (e.name ≠ "_createdAt" ∧ e.name ≠ "_updatedAt") ∧
      (e.label ≠ "_createdAt" ∧ e.label ≠ "_updatedAt")) :
    (renameStage F tc).colNames = F.colNames.map fun n =>
      if n = "_createdAt" then "Created_At"
      else if n = "_updatedAt" then "Updated_At"
      else (mappingLookup tc n).getD n := by
  rw [renameStage, colNames_renameWith, colNames_renameWith, List.map_map]
  apply List.map_congr_left
  intro n _
  show (reservedRename ((mappingLookup tc n).getD n)).getD
      ((mappingLookup tc n).getD n) = _
  by_cases h1 : n = "_createdAt"
  · subst h1
    rw [mappingLookup_eq_none tc _ (fun e he => ((hres e he).1).1)]
    rfl
  · by_cases h2 : n = "_updatedAt"
    · subst h2
      rw [mappingLookup_eq_none tc _ (fun e he => ((hres e he).1).2)]
      rfl
    · rw [if_neg h1, if_neg h2]
      cases hm : mappingLookup tc n with
      | none =>
        simp only [Option.getD_none]
        rw [reservedRename, if_neg h1, if_neg h2]
        rfl
      | some l =>
        obtain ⟨e, he, rfl⟩ := mappingLookup_label_mem tc n l hm
        simp only [Option.getD_some]
        rw [reservedRename, if_neg ((hres e he).2).1,
          if_neg ((hres e he).2).2]
        rfl

/-- Witness for C7 (amended) at a concrete frame and metadata. -/
theorem c7_amended_rename_witness :
    (renameStage ⟨1, [("x", [none]), ("_createdAt", [none])]⟩
        [⟨"x", "X Col"⟩]).colNames = ["X Col", "Created_At"] := by
  exact (c7_amended_rename ⟨1, [("x", [none]), ("_createdAt", [none])]⟩
    [⟨"x", "X Col"⟩] (by decide)).trans (by decide)

/-- On a frame with no rows, `df[c] = None` appends (or overwrites with)
an empty column. -/
theorem setColNone_zero (F : Frame) (hn : F.nRows = 0) (c : String)
    (h : ∀ p ∈ F.cols, p.1 ≠ c) :
    F.setColNone c = ⟨0, F.cols ++ [(c, [])]⟩ := by
  rw [Frame.setColNone, setCol_append_of_notin F c _ h, hn]
  simp

/-- **C6 counterexample.**  The claim says the empty-case table's columns
are the metadata's internal names plus the three reserved columns.  When
the metadata already contains a reserved name (here `_createdAt`), line
117 overwrites that column instead of appending, so the column set is not
the internal names plus three. -/
theorem c6_counterexample :
    (constructFrame [] [⟨"_createdAt", "X"⟩]).cols ≠
      (([⟨"_createdAt", "X"⟩] : List ColumnSpec).map fun c =>
        (c.name, ([] : List (Option CellVal)))) ++
        [("_createdAt", []), ("_updatedAt", []), ("_Sequencenumber", [])] := by
  decide

/-- **C6 (amended).**  When the fetch loop accumulates zero records, the
constructed table has no rows and its columns are exactly the metadata's
internal column names followed by the three reserved columns
`_createdAt`, `_updatedAt`, `_Sequencenumber`, all value-less — provided
the metadata's internal names do not already include a reserved name. -/
theorem c6_amended_empty_table (tc : List ColumnSpec)
    (h : ∀ c ∈ tc, c.name ≠ "_createdAt" ∧ c.name ≠ "_updatedAt" ∧
      c.name ≠ "_Sequencenumber") :
    constructFrame [] tc =
      ⟨0, (tc.map fun c => (c.name, ([] : List (Option CellVal)))) ++
        [("_createdAt", []), ("_updatedAt", []), ("_Sequencenumber", [])]⟩ := by
  have h0 : constructFrame [] tc = emptyFallback tc := by
    rw [constructFrame]
    simp [frameOfRecords, recordKeys, Frame.isEmpty]
  have h1 : ∀ p ∈ (⟨0, tc.map fun c =>
      (c.name, ([] : List (Option CellVal)))⟩ : Frame).cols,
      p.1 ≠ "_createdAt" := by
    intro p hp
    obtain ⟨c, hc, rfl⟩ := List.mem_map.mp hp
    exact (h c hc).1
  have h2 : ∀ p ∈ ((tc.map fun c =>
      (c.name, ([] : List (Option CellVal)))) ++
      [("_createdAt", ([] : List (Option CellVal)))]), p.1 ≠ "_updatedAt" := by
    intro p hp
    rcases List.mem_append.mp hp with hp1 | hp1
    · obtain ⟨c, hc, rfl⟩ := List.mem_map.mp hp1
      exact (h c hc).2.1
    · rw [List.mem_singleton.mp hp1]
      decide
  have h3 : ∀ p ∈ (((tc.map fun c =>
      (c.name, ([] : List (Option CellVal)))) ++
      [("_createdAt", ([] : List (Option CellVal)))]) ++
      [("_updatedAt", ([] : List (Option CellVal)))]),
      p.1 ≠ "_Sequencenumber" := by
    intro p hp
    rcases List.mem_append.mp hp with hp1 | hp1
    · rcases List.mem_append.mp hp1 with hp2 | hp2
      · obtain ⟨c, hc, rfl⟩ := List.mem_map.mp hp2
        exact (h c hc).2.2
      · rw [List.mem_singleton.mp hp2]
        decide
    · rw [List.mem_singleton.mp hp1]
      decide
  have e1 : (⟨0, tc.map fun c =>
      (c.name, ([] : List (Option CellVal)))⟩ : Frame).setColNone
        "_createdAt" =
      ⟨0, (tc.map fun c => (c.name, ([] : List (Option CellVal)))) ++
        [("_createdAt", [])]⟩ := by
    rw [setColNone_zero _ rfl _ h1]
  have e2 : (⟨0, (tc.map fun c =>
      (c.name, ([] : List (Option CellVal)))) ++
        [("_createdAt", [])]⟩ : Frame).setColNone "_updatedAt" =
      ⟨0, ((tc.map fun c => (c.name, ([] : List (Option CellVal)))) ++
        [("_createdAt", [])]) ++ [("_updatedAt", [])]⟩ := by
    rw [setColNone_zero _ rfl _ h2]
  have e3 : (⟨0, ((tc.map fun c =>
      (c.name, ([] : List (Option CellVal)))) ++
        [("_createdAt", [])]) ++ [("_updatedAt", [])]⟩ : Frame).setColNone
        "_Sequencenumber" =
      ⟨0, (((tc.map fun c => (c.name, ([] : List (Option CellVal)))) ++
        [("_createdAt", [])]) ++ [("_updatedAt", [])]) ++
        [("_Sequencenumber", [])]⟩ := by
    rw [setColNone_zero _ rfl _ h3]
  rw [h0]
  simp only [emptyFallback]
  rw [e1, e2, e3]
  simp [List.append_assoc]

/-- Witness for C6 (amended) at concrete metadata. -/
theorem c6_amended_empty_table_witness :
    constructFrame [] [⟨"a", "A"⟩] =
      ⟨0, [("a", []), ("_createdAt", []), ("_updatedAt", []),
        ("_Sequencenumber", [])]⟩ := by
  exact (c6_amended_empty_table [⟨"a", "A"⟩] (by decide)).trans (by decide)

/-- **C2.**  Page-size and cap policy (lines 77–85, 90–105): a query
limit `L` in `[1, 999]` becomes the page size, the cap is the float
division `L/1000`, and — since the cap is then below 1 — the loop issues
exactly one records request (so at most one successful page is fetched);
a limit of 0 (or absent, which parses to 0) or `≥ 1000` gives page size
1000, and a zero/absent limit gives the large sentinel cap 99999999. -/
theorem c2_limit_policy (w : TulipWorld) (inst tok : String)
    (tid tname : Option String) (rn : Bool) (q : String) (info : TableInfo)
    (L : Int)
    (hvalid : ¬((tname = none ∧ tid = none) ∨ (tname ≠ none ∧ tid ≠ none)))
    (hstat : w.listingStatus = 200)
    (hfind : findTable w.listing tid.isSome (refMatch tid tname) = some info)
    (hml : parseLimit (recordsUrl inst (info.id?.getD "None") q) = some L) :
    (1 ≤ L → L ≤ 999 →
      defaultLimit L = L.toNat ∧
      maxIterations L = (L : ℚ) / 1000 ∧
      (import_tulip_table w inst (some tok) tid tname rn q).pageLog =
        [(L.toNat, 0)]) ∧
    ((L = 0 ∨ 1000 ≤ L) → defaultLimit L = 1000) ∧
    (L = 0 → maxIterations L = 99999999) := by
  refine ⟨?_, ?_, ?_⟩
  · intro hL1 hL2
    have hdl : defaultLimit L = L.toNat := by
      rw [defaultLimit, if_pos ⟨by omega, by omega⟩]
    have hmi : maxIterations L = Rat.divInt L 1000 := by
      rw [maxIterations, if_pos (by omega)]
    refine ⟨hdl, by rw [hmi, Rat.divInt_eq_div]; norm_num, ?_⟩
    rw [import_eq_fetchPhase w inst tok tid tname rn q info hvalid hstat
      hfind]
    simp only [fetchPhase, hml]
    have hcap1 : ((1 : ℕ) : ℚ) ≥ maxIterations L := by
      rw [hmi, Rat.divInt_eq_div, ge_iff_le]
      have hLc : (L : ℚ) ≤ ((1000 : Int) : ℚ) := by
        exact_mod_cast (by omega : L ≤ 1000)
      have hdiv : (L : ℚ) / ((1000 : Int) : ℚ) ≤ 1 := by
        rw [div_le_one (by norm_num)]
        exact hLc
      simpa using hdiv
    have hfg : 1 ≤ loopFuel L := by
      rw [loopFuel]
      omega
    obtain ⟨g, hg⟩ : ∃ g, loopFuel L = g + 1 := ⟨loopFuel L - 1, by omega⟩
    rw [hg]
    by_cases h200 : (w.records (defaultLimit L) 0).1 = 200
    · rw [fetchGo_succ_break w.records (defaultLimit L) (maxIterations L) g
        ⟨0, 0, [], [], []⟩ h200 (Or.inr hcap1)]
      simp [hdl]
    · rw [fetchGo_succ_error w.records (defaultLimit L) (maxIterations L) g
        ⟨0, 0, [], [], []⟩ h200]
      simp [hdl]
  · intro hL
    rw [defaultLimit, if_neg (by omega)]
  · intro hL
    subst hL
    rw [maxIterations, if_neg (by omega)]

/-- Witness for C2 at `limit=50`: the page size is 50, the cap is
`50/1000`, and exactly one records request is issued even though the
server would keep answering. -/
theorem c2_limit_policy_witness :
    defaultLimit 50 = 50 ∧ maxIterations 50 = (50 : ℚ) / 1000 ∧
    (import_tulip_table ⟨200, [⟨some "t1", some "T", [⟨"a", "A"⟩]⟩],
      fun limit _ => (200, List.replicate limit [("a", CellVal.scalar "v")])⟩
      "i" (some "tok") (some "t1") none true "?limit=50").pageLog =
      [(50, 0)] := by
  have h := (c2_limit_policy ⟨200, [⟨some "t1", some "T", [⟨"a", "A"⟩]⟩],
    fun limit _ => (200, List.replicate limit [("a", CellVal.scalar "v")])⟩
    "i" "tok" (some "t1") none true "?limit=50"
    ⟨some "t1", some "T", [⟨"a", "A"⟩]⟩ 50 (by simp) rfl (by decide)
    (by decide)).1 (by decide) (by decide)
  exact ⟨h.1.trans (by decide), h.2.1.trans (by norm_num),
    h.2.2.trans (by decide)⟩

/-- **C5.**  Partial failure (lines 106–108): if the requests for the
first `j` pages succeed with full pages and request `j` returns a
non-success status, the loop stops immediately after that request (no
retry: exactly `j + 1` requests), every record accumulated from the
earlier pages is kept, the `Error:` diagnostic is printed, and processing
continues to table construction with the partial record set — the
outcome is still a table, no exception. -/
theorem c5_partial_page_failure (w : TulipWorld) (inst tok : String)
    (tid tname : Option String) (rn : Bool) (q : String) (info : TableInfo)
    (ml : Int) (j : Nat) (pages : Nat → List Rec)
    (hvalid : ¬((tname = none ∧ tid = none) ∨ (tname ≠ none ∧ tid ≠ none)))
    (hstat : w.listingStatus = 200)
    (hfind : findTable w.listing tid.isSome (refMatch tid tname) = some info)
    (hml : parseLimit (recordsUrl inst (info.id?.getD "None") q) = some ml)
    (hfull : ∀ k, k < j →
      w.records (defaultLimit ml) (k * defaultLimit ml) = (200, pages k))
    (hflen : ∀ k, k < j → (pages k).length = defaultLimit ml)
    (hcap : ∀ k, k < j → ((k + 1 : ℕ) : ℚ) < maxIterations ml)
    (hfuel : j < loopFuel ml)
    (hfail : (w.records (defaultLimit ml) (j * defaultLimit ml)).1 ≠ 200) :
    (import_tulip_table w inst (some tok) tid tname rn q).pageLog =
      (List.range (j + 1)).map
        (fun k => (defaultLimit ml, k * defaultLimit ml)) ∧
    (import_tulip_table w inst (some tok) tid tname rn q).outcome =
      .table (postProcess (((List.range j).map pages).flatten)
        info.columns rn).1 ∧
    (import_tulip_table w inst (some tok) tid tname rn q).diagnostics =
      ("Error: " ++
          toString (w.records (defaultLimit ml) (j * defaultLimit ml)).1) ::
        (postProcess (((List.range j).map pages).flatten)
          info.columns rn).2 := by
  rw [import_eq_fetchPhase w inst tok tid tname rn q info hvalid hstat hfind]
  simp only [fetchPhase, hml]
  have hrun := fetchGo_fullPages w.records (defaultLimit ml)
    (maxIterations ml) j pages (loopFuel ml) ⟨0, 0, [], [], []⟩ (by omega)
    (by
      intro k hk
      show w.records (defaultLimit ml) (0 + k * defaultLimit ml) = _
      rw [Nat.zero_add]
      exact hfull k hk)
    hflen
    (by
      intro k hk
      show ((0 + k + 1 : ℕ) : ℚ) < maxIterations ml
      rw [Nat.zero_add]
      exact hcap k hk)
  simp only [Nat.zero_add, List.nil_append] at hrun
  rw [hrun]
  obtain ⟨g, hg⟩ : ∃ g, loopFuel ml - j = g + 1 :=
    ⟨loopFuel ml - j - 1, by omega⟩
  rw [hg]
  rw [fetchGo_succ_error w.records (defaultLimit ml) (maxIterations ml) g
    ⟨j, j * defaultLimit ml, ((List.range j).map pages).flatten,
      (List.range j).map fun k => (defaultLimit ml, k * defaultLimit ml),
      []⟩
    (show (w.records (defaultLimit ml) (j * defaultLimit ml)).1 ≠ 200
      from hfail)]
  refine ⟨?_, rfl, ?_⟩
  · show ((List.range j).map fun k =>
        (defaultLimit ml, k * defaultLimit ml)) ++
        [(defaultLimit ml, j * defaultLimit ml)] = _
    rw [List.range_succ, List.map_append]
    rfl
  · show [] ++ ["Error: " ++
        toString (w.records (defaultLimit ml) (j * defaultLimit ml)).1] ++
        (postProcess (((List.range j).map pages).flatten)
          info.columns rn).2 = _
    simp

/-- World used by the C5 witness: the very first records request fails
with status 500. -/
def c5World : TulipWorld where
  listingStatus := 200
  listing := [⟨some "t1", some "T", [⟨"a", "A"⟩]⟩]
  records := fun _ _ => (500, [])

/-- Witness for C5: the first records request fails; exactly one request
was issued, the error diagnostic is printed, and a table (here the
empty-case fallback) is still produced. -/
theorem c5_partial_page_failure_witness :
    (import_tulip_table c5World "i" (some "tok") (some "t1") none true
      "").pageLog = [(1000, 0)] ∧
    (import_tulip_table c5World "i" (some "tok") (some "t1") none true
      "").outcome = .table ⟨0, [("A", []), ("Created_At", []),
        ("Updated_At", []), ("_Sequencenumber", [])]⟩ ∧
    (import_tulip_table c5World "i" (some "tok") (some "t1") none true
      "").diagnostics = ["Error: 500"] := by
  have h := c5_partial_page_failure c5World "i" "tok" (some "t1") none true
    "" ⟨some "t1", some "T", [⟨"a", "A"⟩]⟩ 0 0 (fun _ => [])
    (by simp) rfl (by decide) (by decide)
    (by intro k hk; omega) (by intro k hk; omega) (by intro k hk; omega)
    (by decide) (by decide)
  exact ⟨h.1.trans (by decide), h.2.1.trans (by decide),
    h.2.2.trans (by decide)⟩

/-- **C1 (amended).**  No-limit pagination (lines 90–108): when the query
parses to no limit (0), the records endpoint holds `N` full pages of the
requested page size 1000 followed by a final partial page of `K < 1000`
records, `N` is below the 99999999 iteration-cap sentinel, and the
records carry at least one field name, the loop issues exactly `N + 1`
requests — one per page, the offset advancing by the page size after
each full page — and the returned table has `N * 1000 + K` rows. -/
theorem c1_amended_pagination (w : TulipWorld) (inst tok : String)
    (tid tname : Option String) (rn : Bool) (q : String) (info : TableInfo)
    (N K : Nat) (pages : Nat → List Rec)
    (hvalid : ¬((tname = none ∧ tid = none) ∨ (tname ≠ none ∧ tid ≠ none)))
    (hstat : w.listingStatus = 200)
    (hfind : findTable w.listing tid.isSome (refMatch tid tname) = some info)
    (hml : parseLimit (recordsUrl inst (info.id?.getD "None") q) = some 0)
    (hN : N < 99999999) (hK : K < 1000)
    (hfull : ∀ k, k < N → w.records 1000 (k * 1000) = (200, pages k))
    (hflen : ∀ k, k < N → (pages k).length = 1000)
    (hlast : w.records 1000 (N * 1000) = (200, pages N))
    (hlastlen : (pages N).length = K)
    (hkeys : recordKeys (((List.range (N + 1)).map pages).flatten) ≠ []) :
    (import_tulip_table w inst (some tok) tid tname rn q).pageLog =
      (List.range (N + 1)).map (fun k => (1000, k * 1000)) ∧
    ∃ F, (import_tulip_table w inst (some tok) tid tname rn q).outcome =
        .table F ∧ F.nRows = N * 1000 + K := by
  rw [import_eq_fetchPhase w inst tok tid tname rn q info hvalid hstat hfind]
  simp only [fetchPhase, hml]
  have hdl : defaultLimit 0 = 1000 := by decide
  have hmi : maxIterations 0 = 99999999 := by decide
  have hlf : loopFuel 0 = 100000000 := by decide
  rw [hdl, hmi, hlf]
  have hrun := fetchGo_fullPages w.records 1000 99999999 N pages 100000000
    ⟨0, 0, [], [], []⟩ (by omega)
    (by
      intro k hk
      show w.records 1000 (0 + k * 1000) = _
      rw [Nat.zero_add]
      exact hfull k hk)
    hflen
    (by
      intro k hk
      show ((0 + k + 1 : ℕ) : ℚ) < 99999999
      rw [Nat.zero_add]
      have hcast : (k + 1 : ℕ) < (99999999 : ℕ) := by omega
      exact_mod_cast hcast)
  simp only [Nat.zero_add, List.nil_append] at hrun
  rw [hrun]
  obtain ⟨g, hg⟩ : ∃ g, 100000000 - N = g + 1 :=
    ⟨100000000 - N - 1, by omega⟩
  rw [hg]
  have hstep := fetchGo_succ_break w.records 1000 99999999 g
    ⟨N, N * 1000, ((List.range N).map pages).flatten,
      (List.range N).map fun k => (1000, k * 1000), []⟩
    (show (w.records 1000 (N * 1000)).1 = 200 by rw [hlast])
    (Or.inl (show (w.records 1000 (N * 1000)).2.length < 1000 by
      rw [hlast]
      show (pages N).length < 1000
      rw [hlastlen]
      exact hK))
  simp only [List.nil_append] at hstep
  rw [hstep]
  have hrecs : ((List.range N).map pages).flatten ++
      (w.records 1000 (N * 1000)).2 =
      ((List.range (N + 1)).map pages).flatten := by
    rw [hlast]
    show ((List.range N).map pages).flatten ++ pages N = _
    rw [List.range_succ, List.map_append, List.flatten_append]
    simp
  rw [hrecs]
  have hlenflat : (((List.range (N + 1)).map pages).flatten).length =
      N * 1000 + K := by
    rw [List.length_flatten, List.range_succ, List.map_append,
      List.map_append, List.sum_append]
    have h1 : ((List.range N).map pages).map List.length =
        List.replicate N 1000 := by
      rw [List.map_map]
      apply List.eq_replicate_iff.mpr
      refine ⟨by simp, ?_⟩
      intro b hb
      obtain ⟨k, hk, rfl⟩ := List.mem_map.mp hb
      exact hflen k (List.mem_range.mp hk)
    rw [h1, List.sum_replicate, smul_eq_mul]
    simp [hlastlen]
  refine ⟨?_, ⟨(postProcess (((List.range (N + 1)).map pages).flatten)
    info.columns rn).1, rfl, ?_⟩⟩
  · show ((List.range N).map fun k => (1000, k * 1000)) ++
        [(1000, N * 1000)] = _
    rw [List.range_succ, List.map_append]
    rfl
  · rw [postProcess_nRows _ _ _ hkeys]
    exact hlenflat

/-- World used by the C1 witness: zero full pages and a single partial
page of two records. -/
def c1World : TulipWorld where
  listingStatus := 200
  listing := [⟨some "t1", some "T", [⟨"a", "A"⟩]⟩]
  records := fun _ _ =>
    (200, [[("a", CellVal.scalar "1")], [("a", CellVal.scalar "2")]])

/-- Witness for C1 (amended) at `N = 0`, `K = 2`: one request, a table of
two rows. -/
theorem c1_amended_pagination_witness :
    (import_tulip_table c1World "i" (some "tok") (some "t1") none true
      "").pageLog = [(1000, 0)] ∧
    ∃ F, (import_tulip_table c1World "i" (some "tok") (some "t1") none true
      "").outcome = .table F ∧ F.nRows = 2 := by
  have h := c1_amended_pagination c1World "i" "tok" (some "t1") none true
    "" ⟨some "t1", some "T", [⟨"a", "A"⟩]⟩ 0 2
    (fun _ => [[("a", CellVal.scalar "1")], [("a", CellVal.scalar "2")]])
    (by simp) rfl (by decide) (by decide) (by decide) (by decide)
    (by intro k hk; omega) (by intro k hk; omega) (by decide) (by decide)
    (by decide)
  obtain ⟨h1, F, hF1, hF2⟩ := h
  exact ⟨h1.trans (by decide), F, hF1, hF2.trans (by norm_num)⟩

/-- World used by the C1 counterexample: 99999999 full pages of 1000
records, then a partial page of 5. -/
def bigWorld : TulipWorld where
  listingStatus := 200
  listing := [⟨some "t1", some "Big", [⟨"f", "F"⟩]⟩]
  records := fun limit offset =>
    if offset < 99999999000 then
      (200, List.replicate limit [("f", CellVal.scalar "v")])
    else (200, List.replicate 5 [("f", CellVal.scalar "v")])

/-- **C1 counterexample.**  The claim as stated quantifies over every
`N`.  At `N = 99999999` (this server really has 99999999 full pages of
the requested size 1000 and then a partial page of 5), the iteration-cap
sentinel `99999999` stops the loop after its 99999999-th successful
page: 99999999 requests are issued, not `N + 1 = 100000000`, and the
final partial page is never fetched. -/
theorem c1_counterexample :
    (∀ k, k < 99999999 → bigWorld.records 1000 (k * 1000) =
      (200, List.replicate 1000 [("f", CellVal.scalar "v")])) ∧
    bigWorld.records 1000 (99999999 * 1000) =
      (200, List.replicate 5 [("f", CellVal.scalar "v")]) ∧
    (List.replicate 5 [("f", CellVal.scalar "v")] : List Rec).length = 5 ∧
    (import_tulip_table bigWorld "i" (some "tok") (some "t1") none true
      "").pageLog.length = 99999999 := by
  refine ⟨?_, ?_, ?_, ?_⟩
  · intro k hk
    show (if k * 1000 < 99999999000 then
        ((200 : ℕ), List.replicate 1000 [("f", CellVal.scalar "v")])
      else (200, List.replicate 5 [("f", CellVal.scalar "v")])) =
      (200, List.replicate 1000 [("f", CellVal.scalar "v")])
    rw [if_pos (by omega)]
  · show (if 99999999 * 1000 < 99999999000 then
        ((200 : ℕ), List.replicate 1000 [("f", CellVal.scalar "v")])
      else (200, List.replicate 5 [("f", CellVal.scalar "v")])) =
      (200, List.replicate 5 [("f", CellVal.scalar "v")])
    rw [if_neg (by omega)]
  · decide
  · have hpl : parseLimit (recordsUrl "i"
        (((⟨some "t1", some "Big", [⟨"f", "F"⟩]⟩ : TableInfo)).id?.getD
          "None") "") = some 0 := by decide
    have h1 := import_eq_fetchPhase bigWorld "i" "tok" (some "t1") none
      true "" ⟨some "t1", some "Big", [⟨"f", "F"⟩]⟩ (by simp) rfl
      (by decide)
    have h2 := fetchPhase_pageLog bigWorld "i"
      ⟨some "t1", some "Big", [⟨"f", "F"⟩]⟩ true "" 0 hpl
    have hdl : defaultLimit 0 = 1000 := by decide
    have hmi : maxIterations 0 = 99999999 := by decide
    have hlf : loopFuel 0 = 100000000 := by decide
    have hargs : (fetchGo bigWorld.records (defaultLimit 0)
        (maxIterations 0) (loopFuel 0) ⟨0, 0, [], [], []⟩).reqLog.length =
        (fetchGo bigWorld.records 1000 99999999 100000000
          ⟨0, 0, [], [], []⟩).reqLog.length := by
      rw [hdl, hmi, hlf]
    have hcap := fetchGo_capped_len bigWorld.records 1000 99999998
      (fun _ => List.replicate 1000 [("f", CellVal.scalar "v")]) 100000000
      ⟨0, 0, [], [], []⟩ (by norm_num)
      (by show (0 : ℕ) + 99999998 + 1 = 99999999; norm_num)
      (by
        intro k hk
        show (if 0 + k * 1000 < 99999999000 then
            ((200 : ℕ), List.replicate 1000 [("f", CellVal.scalar "v")])
          else (200, List.replicate 5 [("f", CellVal.scalar "v")])) =
          (200, List.replicate 1000 [("f", CellVal.scalar "v")])
        rw [if_pos (by omega)])
      (by
        intro k hk
        exact List.length_replicate 1000 _)
    have hfin : (fetchGo bigWorld.records 1000 99999999 100000000
        ⟨0, 0, [], [], []⟩).reqLog.length = 99999999 :=
      hcap.trans (by
        show ([] : List (Nat × Nat)).length + (99999998 + 1) = 99999999
        norm_num)
    have h12 : (import_tulip_table bigWorld "i" (some "tok") (some "t1")
        none true "").pageLog =
        (fetchGo bigWorld.records (defaultLimit 0) (maxIterations 0)
          (loopFuel 0) ⟨0, 0, [], [], []⟩).reqLog :=
      (congrArg ImportRun.pageLog h1).trans h2
    exact (congrArg List.length h12).trans (hargs.trans hfin)

end TulipImport
